import Mathlib

/-!
Verification of the leaderboard update-cycle pipeline.

Shallow embedding of the JavaScript modules under `src/scripts`
(`cleaner.js`, `scraper.js`, `purger.js`, `publisher.js`, `cycle.js`)
and, where relevant, the historical variants kept in the repository.
Strings are modelled as `List Char` (the ASCII fragment of JS strings),
JSON documents as structures with `Option` fields for possibly-absent
keys, and the stage entry points as pure functions on those documents.
-/

namespace Leaderboard

/-! ## JS string primitives -/

/-- The JS `\s` whitespace class, restricted to its ASCII members
(space, tab, line feed, vertical tab, form feed, carriage return). -/
def jsIsSpace (c : Char) : Bool :=
  c = ' ' || c = '\t' || c = '\n' || c = '\r' || c.toNat = 11 || c.toNat = 12

/-- The JS `\w` word-character class `[A-Za-z0-9_]` (ASCII). -/
def isWordChar (c : Char) : Bool :=
  c.isAlpha || c.isDigit || c = '_'

/-- The punctuation characters stripped by `normalizeString` in
`purger.js` (the regex character class on line 183), given by code point
to keep the source text free of bracket/backtick literals. -/
def purgePunct : List Char :=
  [46, 44, 47, 35, 33, 36, 37, 94, 38, 42, 59, 58, 123, 125, 61, 45, 95, 96, 126, 40, 41].map
    Char.ofNat

/-- `replace(/\s+/g, " ")`, scanning left to right: the first
character of each maximal whitespace run becomes a single space and the
rest of the run is dropped.  The flag records whether the previous
character was whitespace. -/
def collapseWsAux : Bool → List Char → List Char
  | _, [] => []
  | prevSpace, c :: t =>
    if jsIsSpace c then
      if prevSpace then collapseWsAux true t
      else ' ' :: collapseWsAux true t
    else c :: collapseWsAux false t

def collapseWs (l : List Char) : List Char :=
  collapseWsAux false l

/-- JS `String.prototype.trim` (ASCII whitespace). -/
def jsTrim (l : List Char) : List Char :=
  ((l.dropWhile jsIsSpace).reverse.dropWhile jsIsSpace).reverse

/-- `normalizeString` from `purger.js` lines 180-186: lowercase, strip
punctuation, collapse whitespace runs, trim. -/
def normalizeString (l : List Char) : List Char :=
  jsTrim (collapseWs ((l.map Char.toLower).filter (fun c => !purgePunct.contains c)))

/-- Does `hay` start with `needle`? (JS `String.prototype.startsWith`.) -/
def startsSeq (needle hay : List Char) : Bool :=
  hay.take needle.length == needle

/-- Does `needle` occur in `hay` at offset `i`? -/
def occursAt (hay needle : List Char) (i : Nat) : Bool :=
  (hay.drop i).take needle.length == needle

/-- JS `String.prototype.includes`: substring containment. -/
def containsSeq (needle hay : List Char) : Bool :=
  (List.range (hay.length + 1)).any (fun i => occursAt hay needle i)

/-- The word-character status of position `i` of `s`; positions outside
the string count as non-word. -/
def wordAt (s : List Char) (i : Nat) : Bool :=
  match s.get? i with
  | some c => isWordChar c
  | none => false

/-- The regex `\b` word boundary between positions `i - 1` and `i`. -/
def boundaryAt (s : List Char) (i : Nat) : Bool :=
  (if i = 0 then false else wordAt s (i - 1)) != wordAt s i

/-- The test `new RegExp("\\b" + escapeRegExp(p) + "\\b", "i").test(s)`
from `purger.js` line 277, for a non-empty escaped literal pattern `p`:
`p` occurs somewhere in `s` with word boundaries on both sides.  (The
`i` flag is immaterial because both strings are already lowercased by
`normalizeString`.) -/
def wholeWordMatch (p s : List Char) : Bool :=
  (List.range (s.length + 1)).any
    (fun i => occursAt s p i && boundaryAt s i && boundaryAt s (i + p.length))

/-- JS `split(' ')` (split on single space characters). -/
def splitSpAux : List Char → List Char → List (List Char)
  | [], acc => [acc.reverse]
  | c :: t, acc =>
    if c = ' ' then acc.reverse :: splitSpAux t []
    else splitSpAux t (c :: acc)

def splitSp (l : List Char) : List (List Char) :=
  splitSpAux l []

/-! ## Purger: author and title matching (`purger.js`) -/

/-- `isAuthorMatch` from `purger.js` lines 204-245: after normalizing
both names, match on equality, mutual substring containment, or a
shared last token longer than three characters.  Empty (JS-falsy)
inputs never match. -/
def isAuthorMatch (bookAuthor blacklistAuthor : List Char) : Bool :=
  if bookAuthor.isEmpty || blacklistAuthor.isEmpty then false
  else
    let nb := normalizeString bookAuthor
    let na := normalizeString blacklistAuthor
    if nb == na then true
    else if containsSeq na nb then true
    else if containsSeq nb na then true
    else
      let bl := (splitSp nb).getLastD []
      let al := (splitSp na).getLastD []
      bl == al && decide (bl.length > 3)

/-- The pattern loop of `isTitleBlacklisted` (`purger.js` lines
260-288) over the already-normalized title `nt`: skip patterns that
normalize to the empty string; otherwise report a match on plain
substring containment first, and on a whole-word (word-boundary regex)
occurrence second.  Returns the first matching original pattern. -/
def titleCheck (nt : List Char) : List (List Char) → Option (List Char)
  | [] => none
  | p :: ps =>
    let np := normalizeString p
    if np.isEmpty then titleCheck nt ps
    else if containsSeq np nt then some p
    else if wholeWordMatch np nt then some p
    else titleCheck nt ps

/-- `isTitleBlacklisted` from `purger.js` lines 253-294, returning the
`(isBlacklisted, matchedPattern)` pair. -/
def isTitleBlacklisted (bookTitle : List Char) (titlePatterns : List (List Char)) :
    Bool × Option (List Char) :=
  if bookTitle.isEmpty then (false, none)
  else
    match titleCheck (normalizeString bookTitle) titlePatterns with
    | some p => (true, some p)
    | none => (false, none)

/-! ## Purger: blacklist policy loading and the purge pass (`purger.js`) -/

/-- A stored book as the purge pass sees it (only `title` and `author`
take part in matching; JS-falsy absence is modelled by `[]`). -/
structure PBook where
  title : List Char
  author : List Char
deriving DecidableEq, Repr

/-- The parsed `blacklist.json` document; `none` models an absent key. -/
structure BlacklistDoc where
  authors : Option (List (List Char))
  title_patterns : Option (List (List Char))
  patterns : Option (List (List Char))
deriving DecidableEq

/-- Outcome of reading `blacklist.json` in `purge` (`purger.js` lines
504-585): the file can be missing, empty, syntactically invalid, or
parse to a document. -/
inductive BlacklistRead where
  | missing
  | emptyFile
  | invalidJson
  | parsed (doc : BlacklistDoc)
deriving DecidableEq

/-- The effective policy `purge` matches against. -/
structure EffBlacklist where
  authors : List (List Char)
  title_patterns : List (List Char)
  patterns : List (List Char)
deriving DecidableEq

/-- The hardcoded author names pushed on an empty `authors` array and
used for the emergency blacklist (`purger.js` lines 537 and 567). -/
def emergencyAuthors : List (List Char) :=
  (["Adolf Hitler", "William Shakespeare", "Randall Kennedy", "Rick Donahue",
    "Dick Gregory"].map String.data)

/-- The hardcoded title patterns pushed on an empty `title_patterns`
array and used for the emergency blacklist (`purger.js` lines 542 and
568). -/
def emergencyTitlePatterns : List (List Char) :=
  (["nigger", "mein kampf", "adult", "xxx", "erotica"].map String.data)

/-- The blacklist-loading logic of `purge` (`purger.js` lines 504-585):
a missing, empty or unparseable document becomes the hardcoded
emergency blacklist; a parsed document has absent arrays defaulted to
`[]` and empty `authors` / `title_patterns` arrays replaced by the
emergency entries. -/
def loadBlacklist : BlacklistRead → EffBlacklist
  | .missing => ⟨emergencyAuthors, emergencyTitlePatterns, []⟩
  | .emptyFile => ⟨emergencyAuthors, emergencyTitlePatterns, []⟩
  | .invalidJson => ⟨emergencyAuthors, emergencyTitlePatterns, []⟩
  | .parsed doc =>
    let a := doc.authors.getD []
    let t := doc.title_patterns.getD []
    let p := doc.patterns.getD []
    ⟨if a.isEmpty then emergencyAuthors else a,
     if t.isEmpty then emergencyTitlePatterns else t, p⟩

/-- The legacy `patterns` loop of `isBlacklisted` (`purger.js` lines
444-467): a `title:`-prefixed entry is (when the book has a truthy
title) a title pattern on the trimmed remainder; any other entry —
including a `title:` entry when the title is falsy — is an author
pattern.  Returns `(reason, matchedPattern)`. -/
def legacyCheck (b : PBook) : List (List Char) → Option (String × List Char)
  | [] => none
  | p :: ps =>
    if startsSeq "title:".data p && !b.title.isEmpty then
      let titlePattern := jsTrim (p.drop 6)
      if (isTitleBlacklisted b.title [titlePattern]).1 then
        some ("legacy_title_pattern", titlePattern)
      else legacyCheck b ps
    else if isAuthorMatch b.author p then some ("legacy_author_pattern", p)
    else legacyCheck b ps

/-- `isBlacklisted` from `purger.js` lines 412-479 (the non-exceptional
path), returning `(isBlacklisted, reason, matchedPattern)`: author
rules first, then `title_patterns`, then legacy `patterns`. -/
def isBlacklisted (b : PBook) (bl : EffBlacklist) :
    Bool × Option String × Option (List Char) :=
  match bl.authors.find? (fun a => isAuthorMatch b.author a) with
  | some a => (true, some "blacklisted_author", some a)
  | none =>
    let tc :=
      if !b.title.isEmpty then isTitleBlacklisted b.title bl.title_patterns
      else (false, none)
    if tc.1 then (true, some "blacklisted_title_pattern", tc.2)
    else
      match legacyCheck b bl.patterns with
      | some rp => (true, some rp.1, some rp.2)
      | none => (false, none, none)

/-- Result of the purge stage. -/
structure PurgeResult where
  success : Bool
  totalBooks : Nat
  purgedCount : Nat
  remaining : List (List Char × PBook)
deriving DecidableEq

/-- The book-processing loop of `purge` (`purger.js` lines 587-665):
every stored book is checked against the effective blacklist obtained
from the blacklist read outcome; matching books are removed and
counted, and the stage reports success. -/
def purgeModel (books : List (List Char × PBook)) (r : BlacklistRead) : PurgeResult :=
  let bl := loadBlacklist r
  let purged := books.filter (fun kb => (isBlacklisted kb.2 bl).1)
  let kept := books.filter (fun kb => !(isBlacklisted kb.2 bl).1)
  ⟨true, books.length, purged.length, kept⟩

/-! ## Cleaner (`cleaner.js`, and the variant in `src/unnamed/part_001`) -/

/-- A pending submission (`failed_attempts` starts at 0; an undefined
JS counter behaves as 0 through the `(x || 0)` coercions). -/
structure Submission where
  url : List Char
  submitted_at : List Char
  failed_attempts : Nat
deriving DecidableEq, Repr

/-- The regex class `[A-Z0-9]` of the ASIN pattern. -/
def isAsinChar (c : Char) : Bool :=
  c.isUpper || c.isDigit

/-- Try to match `/dp/([A-Z0-9]{10})` at the head of `l`. -/
def asinAt (l : List Char) : Option (List Char) :=
  match l with
  | '/' :: 'd' :: 'p' :: '/' :: rest =>
    let cand := rest.take 10
    if cand.length = 10 && cand.all isAsinChar then some cand else none
  | _ => none

/-- `extractASIN` from `cleaner.js` lines 70-73: first match of
`/\/dp\/([A-Z0-9]{10})/` in the URL, scanning left to right. -/
def extractASIN : List Char → Option (List Char)
  | [] => none
  | c :: t =>
    match asinAt (c :: t) with
    | some a => some a
    | none => extractASIN t

/-- Result of a cleanup pass: kept submissions in order, and removed
submissions paired with their removal reason. -/
structure CleanResult where
  kept : List Submission
  removed : List (Submission × String)
deriving DecidableEq, Repr

/-- The submission filter of `cleanup` in `src/scripts/cleaner.js`
lines 127-148 (the cleaner the orchestrator imports): a submission
without an extractable ASIN is removed as `invalid_asin`; one whose
ASIN is a key of the item database is kept unchanged; one whose ASIN is
absent is removed immediately as `failed_or_purged`. -/
def cleanerCleanup (subs : List Submission) (bookKeys : List (List Char)) : CleanResult :=
  match subs with
  | [] => ⟨[], []⟩
  | s :: rest =>
    let r := cleanerCleanup rest bookKeys
    match extractASIN s.url with
    | none => ⟨r.kept, (s, "invalid_asin") :: r.removed⟩
    | some a =>
      if bookKeys.any (fun k => k == a) then ⟨s :: r.kept, r.removed⟩
      else ⟨r.kept, (s, "failed_or_purged") :: r.removed⟩

/-- The submission filter of the cleaner variant in
`src/unnamed/part_001` lines 159-190: the failure counter is
incremented up front, reset to 0 when the ASIN is in the database, and
the submission is removed once the incremented counter reaches 3. -/
def part001Cleanup (subs : List Submission) (bookKeys : List (List Char)) : CleanResult :=
  match subs with
  | [] => ⟨[], []⟩
  | s :: rest =>
    let r := part001Cleanup rest bookKeys
    match extractASIN s.url with
    | none => ⟨r.kept, (s, "invalid_asin") :: r.removed⟩
    | some a =>
      let fa := s.failed_attempts + 1
      if bookKeys.any (fun k => k == a) then
        ⟨{ s with failed_attempts := 0 } :: r.kept, r.removed⟩
      else if fa ≥ 3 then
        ⟨r.kept, ({ s with failed_attempts := fa }, "failed_or_purged") :: r.removed⟩
      else ⟨{ s with failed_attempts := fa } :: r.kept, r.removed⟩

/-! ## Publisher (`publisher.js`) -/

/-- JS `parseInt(s, 10)`: skip leading whitespace, optional sign, then
the longest leading digit run; `none` models `NaN`. -/
def digitsVal (ds : List Char) : Nat :=
  ds.foldl (fun n c => n * 10 + (c.toNat - 48)) 0

def parseIntDigits (r : List Char) : Option Nat :=
  let ds := r.takeWhile Char.isDigit
  if ds.isEmpty then none else some (digitsVal ds)

def parseIntJs (s : List Char) : Option Int :=
  match s.dropWhile jsIsSpace with
  | '-' :: rest => (parseIntDigits rest).map (fun n => -(n : Int))
  | '+' :: rest => (parseIntDigits rest).map (fun n => (n : Int))
  | t => (parseIntDigits t).map (fun n => (n : Int))

/-- `parseInt(String(book.bsr).replace(/,/g, ''), 10)` (`publisher.js`
lines 71-72): the stored `bsr` is modelled by its `String(...)` image,
with `none` for an absent field (whose image `"undefined"` parses to
`NaN` just as `none` maps to `none` here). -/
def bsrKey : Option String → Option Int
  | none => none
  | some s => parseIntJs ((s.data).filter (fun c => c ≠ ','))

/-- The sort comparator of `transformToOutput` (`publisher.js` lines
69-80) as a total preorder on parsed `bsr` keys: numeric ascending,
`NaN` last. -/
def optKeyLeB : Option Int → Option Int → Bool
  | none, none => true
  | none, some _ => false
  | some _, none => true
  | some x, some y => decide (x ≤ y)

/-- A book record as `transformToOutput` reads it from
`metadata.books` (only the five published fields matter; `none` models
an absent key). -/
structure MetaBook where
  title : Option String
  author : Option String
  cover_url : Option String
  bsr : Option String
  url : Option String
deriving DecidableEq, Repr

/-- A ranked entry of the published artifact. -/
structure OutBook where
  rank : Nat
  title : Option String
  author : Option String
  cover_url : Option String
  bsr : Option String
  url : Option String
deriving DecidableEq, Repr

/-- The published artifact (`books.json`). -/
structure PubOutput where
  version : String
  last_updated : String
  books : List (String × OutBook)
deriving DecidableEq, Repr

/-- The comparator order on database entries. -/
def entRel (a b : String × MetaBook) : Prop :=
  optKeyLeB (bsrKey a.2.bsr) (bsrKey b.2.bsr) = true

instance : DecidableRel entRel := fun a b => by
  unfold entRel; infer_instance

instance : IsTotal (String × MetaBook) entRel := by
  constructor
  intro a b
  unfold entRel optKeyLeB
  cases bsrKey a.2.bsr with
  | none => cases bsrKey b.2.bsr with
    | none => simp
    | some y => simp
  | some x => cases bsrKey b.2.bsr with
    | none => simp
    | some y => simpa using Int.le_total x y

instance : IsTrans (String × MetaBook) entRel := by
  constructor
  intro a b c
  unfold entRel optKeyLeB
  cases bsrKey a.2.bsr with
  | none =>
    cases bsrKey b.2.bsr with
    | none => cases bsrKey c.2.bsr <;> simp
    | some y => simp
  | some x =>
    cases bsrKey b.2.bsr with
    | none => cases bsrKey c.2.bsr <;> simp
    | some y =>
      cases bsrKey c.2.bsr with
      | none => simp
      | some z => simpa using fun h1 h2 => Int.le_trans h1 h2

/-- Rank assignment (`publisher.js` lines 83-93): position `idx` of the
sorted array gets `rank = idx + 1`, starting from `i`. -/
def assignRanks (i : Nat) : List (String × MetaBook) → List (String × OutBook)
  | [] => []
  | (asin, b) :: t => (asin, ⟨i, b.title, b.author, b.cover_url, b.bsr, b.url⟩) :: assignRanks (i + 1) t

/-- `transformToOutput` from `publisher.js` lines 62-100: sort the
database entries by parsed `bsr` (invalid values last) and assign dense
ranks 1..N by sorted position.  `ts` stands for the
`new Date().toISOString()` timestamp. -/
def transformToOutput (ts : String) (meta : List (String × MetaBook)) : PubOutput :=
  ⟨"1.0", ts, assignRanks 1 (List.insertionSort entRel meta)⟩

/-- `isValidBook` from `publisher.js` lines 103-135: all five fields
present, non-blank title and author, `http`-prefixed cover URL, URL
containing `amazon.com`, parseable `bsr`. -/
def isValidBook (b : OutBook) : Bool :=
  b.title.isSome && b.author.isSome && b.cover_url.isSome && b.bsr.isSome && b.url.isSome &&
  (match b.title with
   | some t => !(jsTrim t.data).isEmpty
   | none => false) &&
  (match b.author with
   | some a => !(jsTrim a.data).isEmpty
   | none => false) &&
  (match b.cover_url with
   | some c => startsSeq "http".data c.data
   | none => false) &&
  (match b.url with
   | some u => containsSeq "amazon.com".data u.data
   | none => false) &&
  (bsrKey b.bsr).isSome

/-- The per-entry validity test of `validateOutput` (`publisher.js`
lines 160-183): a usable ASIN (truthy and at least 10 characters), a
valid book, and an integer rank of at least 1 (ranks are `Nat` in the
model, so only the lower bound is a real condition). -/
def validEntry (e : String × OutBook) : Bool :=
  (!e.1.isEmpty && decide (e.1.length ≥ 10)) && isValidBook e.2 && decide (e.2.rank ≥ 1)

/-- The `validBooks` accumulator of `validateOutput` (`publisher.js`
lines 154-183): the entries passing `validEntry`, in iteration order. -/
def validBooksOf (o : PubOutput) : List (String × OutBook) :=
  o.books.filter validEntry

/-- The `ranks` set of `validateOutput` (`publisher.js` lines 158 and
180): the set of ranks of the valid entries. -/
def ranksOf (o : PubOutput) : Finset Nat :=
  ((validBooksOf o).map (fun e => e.2.rank)).toFinset

/-- `validateOutput` from `publisher.js` lines 137-214: checks the
top-level shape (`dateOk` stands for `Date.parse` succeeding on the
timestamp string), filters the entries through `validEntry`, checks —
when there is at least one valid book — that the surviving ranks cover
`1..N` with no duplicates (via the `ranks` set), rejects an output with
no valid books, and returns the sanitized output. -/
def validateOutput (dateOk : String → Bool) (o : PubOutput) : Except String PubOutput :=
  if o.last_updated.isEmpty || !dateOk o.last_updated then
    .error "Output must have a valid last_updated timestamp"
  else if decide ((validBooksOf o).length > 0) &&
      !((List.range' 1 (validBooksOf o).length).all (fun i => decide (i ∈ ranksOf o))) then
    .error "Invalid rank sequence: missing rank"
  else if decide ((validBooksOf o).length > 0) &&
      !((ranksOf o).card == (validBooksOf o).length) then
    .error "Invalid rank sequence: duplicate or out-of-range ranks found"
  else if (validBooksOf o).isEmpty then
    .error "No valid books found in output"
  else
    .ok ⟨o.version, o.last_updated, validBooksOf o⟩

/-! ## The safe-write primitive under crash interruption

Two distinct implementations of `safeWriteJSON` exist in the sources:
the temp-file variant (`cleaner.js` lines 13-67, also `publisher.js`
lines 5-59 and `src/unnamed/part_000`/`part_001`/`part_002`), which
backs up, writes a temporary file and atomically renames it over the
destination; and the direct variant (`cycle.js` lines 190-216, also
`purger.js` lines 146-172), which backs up and then writes the new
document straight to the destination with no temporary file.

The models below enumerate every file-system state observable if the
process crashes at any point of a call (no recovery code runs after a
crash).  `fs.writeFile` is not atomic: a crash mid-write leaves an
arbitrary partial content `p` in the target; `fs.rename` is atomic. -/

/-- Contents of the three files a `safeWriteJSON(path, doc)` call can
touch; `none` is an absent file. -/
structure FS where
  main : Option String
  backup : Option String
  temp : Option String
deriving DecidableEq, Repr

/-- The backup file's content once the backup step has completed: a
copy of `main` when `main` exists, otherwise untouched (the `ENOENT`
branch skips the copy). -/
def bkup (fs0 : FS) : Option String :=
  if fs0.main.isSome then fs0.main else fs0.backup

/-- States reachable when the temp-file `safeWriteJSON` (`cleaner.js`
lines 13-67) writing `doc` from initial state `fs0` is interrupted by a
process crash: before/during/after the backup copy, during/after the
temp write, after the atomic rename, and after the backup unlink. -/
inductive SafeWriteCrash (fs0 : FS) (doc : String) : FS → Prop where
  | initial : SafeWriteCrash fs0 doc fs0
  | backupPartial (p : String) :
      fs0.main.isSome → SafeWriteCrash fs0 doc ⟨fs0.main, some p, fs0.temp⟩
  | backupDone : SafeWriteCrash fs0 doc ⟨fs0.main, bkup fs0, fs0.temp⟩
  | tempPartial (p : String) : SafeWriteCrash fs0 doc ⟨fs0.main, bkup fs0, some p⟩
  | tempDone : SafeWriteCrash fs0 doc ⟨fs0.main, bkup fs0, some doc⟩
  | renamed : SafeWriteCrash fs0 doc ⟨some doc, bkup fs0, none⟩
  | unlinked : SafeWriteCrash fs0 doc ⟨some doc, none, none⟩

/-- States reachable when the direct `safeWriteJSON` (`cycle.js` lines
190-216) writing `doc` from initial state `fs0` is interrupted by a
process crash: this variant writes the new document directly to the
destination, so a crash mid-write leaves a partial `main`. -/
inductive DirectWriteCrash (fs0 : FS) (doc : String) : FS → Prop where
  | initial : DirectWriteCrash fs0 doc fs0
  | backupPartial (p : String) :
      fs0.main.isSome → DirectWriteCrash fs0 doc ⟨fs0.main, some p, fs0.temp⟩
  | backupDone : DirectWriteCrash fs0 doc ⟨fs0.main, bkup fs0, fs0.temp⟩
  | mainPartial (p : String) : DirectWriteCrash fs0 doc ⟨some p, bkup fs0, fs0.temp⟩
  | mainDone : DirectWriteCrash fs0 doc ⟨some doc, bkup fs0, fs0.temp⟩
  | unlinked : DirectWriteCrash fs0 doc ⟨some doc, none, fs0.temp⟩

/-! ## Scraper: the success upsert (`scraper.js`) -/

/-- The `result.data` payload of a successful `scrapeBook`
(`scraper.js` lines 370-440 variant shape, restricted to the fields
`processBatch` stores). -/
structure ScrapedData where
  url : String
  asin : String
  title : Option String
  author : Option String
  cover_url : Option String
  bsr : Int
  last_checked : String
  status : String
deriving DecidableEq, Repr

/-- A stored record of `metadata.books`; `none` models an absent key
(the fields beyond the scraped scalars exist only on records written by
older code paths). -/
structure BookRec where
  url : String
  asin : String
  title : Option String
  author : Option String
  cover_url : Option String
  bsr : Int
  last_checked : String
  status : String
  last_updated : Option String
  first_seen : Option String
  leaderboard_rank : Option Int
  history : Option (List (String × Int))
deriving DecidableEq, Repr

/-- The object `{...result.data, last_updated: new Date().toISOString()}`
stored by `processBatch` (`scraper.js` lines 461-464): only the scraped
scalars plus `last_updated`; no `first_seen`, `history` or
`leaderboard_rank` keys. -/
def freshRec (d : ScrapedData) (now : String) : BookRec :=
  ⟨d.url, d.asin, d.title, d.author, d.cover_url, d.bsr, d.last_checked, d.status,
   some now, none, none, none⟩

/-- JS object key assignment `books[k] = v`: replace in place when the
key exists, append otherwise. -/
def setKey (books : List (String × BookRec)) (k : String) (v : BookRec) :
    List (String × BookRec) :=
  if books.any (fun kb => kb.1 == k) then
    books.map (fun kb => if kb.1 == k then (k, v) else kb)
  else books ++ [(k, v)]

/-- Key lookup in `metadata.books`. -/
def lookupKey (books : List (String × BookRec)) (k : String) : Option BookRec :=
  (books.find? (fun kb => kb.1 == k)).map (fun kb => kb.2)

/-- The success branch of `processBatch` (`scraper.js` lines 459-465):
`metadata.books[result.data.asin] = {...result.data, last_updated}`. -/
def processBatchUpsert (books : List (String × BookRec)) (d : ScrapedData) (now : String) :
    List (String × BookRec) :=
  setKey books d.asin (freshRec d now)

/-- The success branch of the legacy scrape variant embedded with
`publisher.js` (lines 705-730 of that file): a new item gets
`first_seen`, `leaderboard_rank: 0` and an empty history; an existing
item keeps `first_seen`/`leaderboard_rank`/`last_updated`, has its
scalars replaced, and gets `{timestamp, bsr}` appended to its
history. -/
def legacyScrapeUpsert (books : List (String × BookRec)) (d : ScrapedData) (now : String) :
    List (String × BookRec) :=
  match lookupKey books d.asin with
  | none =>
    setKey books d.asin
      ⟨d.url, d.asin, d.title, d.author, d.cover_url, d.bsr, d.last_checked, d.status,
       none, some now, some 0, some []⟩
  | some old =>
    setKey books d.asin
      ⟨d.url, d.asin, d.title, d.author, d.cover_url, d.bsr, d.last_checked, d.status,
       old.last_updated, old.first_seen, old.leaderboard_rank,
       some ((old.history.getD []) ++ [(now, d.bsr)])⟩

/-! ## The cycle orchestrator (`cycle.js`) -/

/-- The four pipeline stages. -/
inductive Stage where
  | scrape
  | purge
  | cleanup
  | publish
deriving DecidableEq, Repr

/-- The order in which `cycle` (`cycle.js` lines 304-350) actually runs
the stages. -/
def stageSeq : List Stage := [.scrape, .purge, .cleanup, .publish]

/-- Environment of one `cycle()` invocation: the outcome of each
fallible step it performs. -/
structure CycleEnv where
  lockedBefore : Bool
  initOk : Bool
  runningStatusOk : Bool
  stageOk : Stage → Bool
  completedStatusOk : Bool

/-- Observable outcome of one `cycle()` invocation: the result value,
the stages that were started (in order, a failing stage included), and
whether the lock file this invocation created is still present when it
returns. -/
structure CycleOutcome where
  success : Bool
  executed : List Stage
  lockHeldAfter : Bool
deriving DecidableEq, Repr

/-- Run stages in order, stopping after the first failure (`cycle.js`
throws out of the stage sequence when a stage reports failure). -/
def runStagesAux (ok : Stage → Bool) : List Stage → List Stage × Bool
  | [] => ([], true)
  | s :: rest =>
    if ok s then
      let r := runStagesAux ok rest
      (s :: r.1, r.2)
    else ([s], false)

/-- `cycle` from `cycle.js` lines 260-426.  A held (non-stale) lock is
an immediate rejection.  Otherwise the lock is created; a failure of
`initializeFiles` (line 277) is caught by the outer handler, which is
not covered by the `finally` that releases the lock (lines 411-414) —
that `finally` belongs to the inner `try` entered at line 289.  Inside
the inner block, a failure of the `running`-status write, of any stage,
or of the `completed`-status write produces a failure result, and the
`finally` releases the lock on every inner path. -/
def cycleModel (env : CycleEnv) : CycleOutcome :=
  if env.lockedBefore then ⟨false, [], false⟩
  else if !env.initOk then ⟨false, [], true⟩
  else if !env.runningStatusOk then ⟨false, [], false⟩
  else
    let r := runStagesAux env.stageOk stageSeq
    if r.2 then
      if env.completedStatusOk then ⟨true, r.1, false⟩
      else ⟨false, r.1, false⟩
    else ⟨false, r.1, false⟩

/-! ## Purger: raw JSON field values, refining the blacklist load

`JSON.parse` can hand `purge` a document whose `authors` /
`title_patterns` / `patterns` keys hold values of any JSON type — not
just arrays or absent keys.  The loading code distinguishes value
shapes only through three observations: JS truthiness (line 519,
`if (!blacklist.authors)`), the `.length === 0` test with a following
`push` (lines 535-543), and the `Array.isArray` guards inside
`isBlacklisted` (lines 419, 432, 444).  `RawBValue` models a field
value by how it behaves under exactly those observations; the
`BlacklistDoc`/`loadBlacklist` model above is the restriction of this
one to absent-or-array fields. -/

/-- A JSON value stored under one of the three blacklist keys:

* `falsy` — the key is absent or holds a falsy value (`null`, `""`,
  `0`, `false`), so line 519 replaces it with `[]`;
* `arr xs` — an array of strings;
* `strayNonZero` — a truthy non-array whose `.length === 0` test is
  false (a non-empty string, a number whose `.length` is `undefined`,
  a plain object), which lines 519 and 535 both pass over unchanged;
* `strayZero` — a truthy non-array on which `.length === 0` holds
  (e.g. `{"length": 0}`), so the emergency `push` at line 537/542
  throws and the parse catch at line 562 installs the emergency
  blacklist. -/
inductive RawBValue where
  | falsy
  | arr (xs : List (List Char))
  | strayNonZero
  | strayZero
deriving DecidableEq, Repr

/-- A parsed blacklist document with raw field values; also the type of
the effective document `purge` hands to `isBlacklisted` after
loading. -/
structure RawBlacklistDoc where
  authors : RawBValue
  title_patterns : RawBValue
  patterns : RawBValue
deriving DecidableEq, Repr

/-- Outcome of reading `blacklist.json`, with raw parsed field values.
`parsedNonObject` is a successful parse of a non-object document
(a string, a number, `null`): accessing or assigning its fields and
taking `.length` throws inside the same try, reaching the catch at
line 562, so it ends in the emergency blacklist like a parse error. -/
inductive RawBlacklistRead where
  | missing
  | emptyFile
  | invalidJson
  | parsedNonObject
  | parsed (doc : RawBlacklistDoc)
deriving DecidableEq

/-- The hardcoded emergency blacklist (`purger.js` lines 566-572 and
578-584) as a raw document. -/
def rawEmergency : RawBlacklistDoc :=
  ⟨.arr emergencyAuthors, .arr emergencyTitlePatterns, .arr []⟩

/-- The `.length === 0` test of lines 535/540 on an already-initialized
(non-falsy) field value. -/
def rawLenZero : RawBValue → Bool
  | .arr xs => xs.isEmpty
  | .strayZero => true
  | _ => false

/-- The blacklist-loading logic of `purge` (`purger.js` lines 504-585)
over raw field values.  A read failure, empty file, parse error or
non-object document yields the emergency blacklist.  For a parsed
object: falsy fields are initialized to `[]` (lines 519-532); then the
emergency entries are pushed onto `authors` and (in that order)
`title_patterns` when `.length === 0` (lines 535-543), where a
throwing push — a truthy non-array with zero length — reaches the
catch at line 562 and yields the emergency blacklist; every other
value, in particular a truthy non-array with non-zero length, passes
through unchanged. -/
def loadRawBlacklist : RawBlacklistRead → RawBlacklistDoc
  | .missing => rawEmergency
  | .emptyFile => rawEmergency
  | .invalidJson => rawEmergency
  | .parsedNonObject => rawEmergency
  | .parsed doc =>
    let a := if doc.authors = .falsy then .arr [] else doc.authors
    let t := if doc.title_patterns = .falsy then .arr [] else doc.title_patterns
    let p := if doc.patterns = .falsy then .arr [] else doc.patterns
    if a = .strayZero then rawEmergency
    else if t = .strayZero then rawEmergency
    else
      ⟨if rawLenZero a then .arr emergencyAuthors else a,
       if rawLenZero t then .arr emergencyTitlePatterns else t,
       p⟩

/-- The `Array.isArray` guards of `isBlacklisted` (lines 419, 432,
444): a non-array layer is skipped entirely, which is observationally
the same as the layer holding no rules — `isBlacklisted` with `[]` in
a field performs no matching in that layer. -/
def asMatchList : RawBValue → List (List Char)
  | .arr xs => xs
  | _ => []

/-- The rule lists `isBlacklisted` effectively matches against, the
`Array.isArray` guards made explicit through `asMatchList`. -/
def rawEffPolicy (d : RawBlacklistDoc) : EffBlacklist :=
  ⟨asMatchList d.authors, asMatchList d.title_patterns, asMatchList d.patterns⟩

/-- The `Option`-typed fields of `BlacklistDoc` as raw values (absent
key or array). -/
def toRawField : Option (List (List Char)) → RawBValue
  | none => .falsy
  | some xs => .arr xs

/-! ## Concrete instances used in witnesses and counterexamples -/

/-- A two-book database with complete fields and distinct `bsr`
values. -/
def metaW : List (String × MetaBook) :=
  [("B00000000A",
    ⟨some "Beta", some "Bob Jones", some "http://img.example/b.jpg", some "1,234",
     some "https://www.amazon.com/dp/B00000000A"⟩),
   ("B00000000B",
    ⟨some "Alpha", some "Ann Smith", some "http://img.example/a.jpg", some "57",
     some "https://www.amazon.com/dp/B00000000B"⟩)]

/-- The artifact `publish` derives from `metaW`: the `bsr`-57 book gets
rank 1 and the `bsr`-1234 book rank 2. -/
def outW : PubOutput :=
  ⟨"1.0", "2025-01-01T00:00:00.000Z",
   [("B00000000B",
     ⟨1, some "Alpha", some "Ann Smith", some "http://img.example/a.jpg", some "57",
      some "https://www.amazon.com/dp/B00000000B"⟩),
    ("B00000000A",
     ⟨2, some "Beta", some "Bob Jones", some "http://img.example/b.jpg", some "1,234",
      some "https://www.amazon.com/dp/B00000000A"⟩)]⟩

/-- A stored record with a non-trivial history and `first_seen`. -/
def bookRecOld : BookRec :=
  ⟨"https://www.amazon.com/dp/B00000000C", "B00000000C", some "Title", some "Author",
   some "http://img.example/c.jpg", 100, "2025-01-01T00:00:00.000Z", "active",
   some "2025-01-01T00:00:00.000Z", some "2024-12-01T00:00:00.000Z", some 3,
   some [("2025-01-01T00:00:00.000Z", 100)]⟩

/-- A later successful scrape of the same item. -/
def scrapedD : ScrapedData :=
  ⟨"https://www.amazon.com/dp/B00000000C", "B00000000C", some "Title", some "Author",
   some "http://img.example/c2.jpg", 50, "2025-01-02T00:00:00.000Z", "active"⟩

end Leaderboard

namespace Leaderboard

/-! ## Helper lemmas -/

theorem wholeWordMatch_contains {p s : List Char} (h : wholeWordMatch p s = true) :
    containsSeq p s = true := by
  unfold wholeWordMatch at h
  unfold containsSeq
  rw [List.any_eq_true] at h ⊢
  obtain ⟨i, hi, hcond⟩ := h
  refine ⟨i, hi, ?_⟩
  have h1 := (Bool.and_eq_true _ _).mp hcond
  have h2 := (Bool.and_eq_true _ _).mp h1.1
  exact h2.1

/-- The title-pattern loop reports a match exactly when some pattern
with a non-empty normal form is a substring of the normalized title:
the word-boundary branch is subsumed by the substring branch that runs
before it. -/
theorem titleCheck_isSome_iff (nt : List Char) (ps : List (List Char)) :
    (titleCheck nt ps).isSome = true ↔
      ∃ p ∈ ps, (normalizeString p).isEmpty = false ∧
        containsSeq (normalizeString p) nt = true := by
  induction ps with
  | nil => simp [titleCheck]
  | cons p ps ih =>
    by_cases h1 : (normalizeString p).isEmpty = true
    · rw [show titleCheck nt (p :: ps) = titleCheck nt ps by simp [titleCheck, h1]]
      rw [ih]
      constructor
      · rintro ⟨q, hq, hne, hc⟩
        exact ⟨q, List.mem_cons_of_mem p hq, hne, hc⟩
      · rintro ⟨q, hq, hne, hc⟩
        rcases List.mem_cons.mp hq with rfl | hq
        · rw [h1] at hne
          exact absurd hne (by simp)
        · exact ⟨q, hq, hne, hc⟩
    · by_cases h2 : containsSeq (normalizeString p) nt = true
      · rw [show titleCheck nt (p :: ps) = some p by simp [titleCheck, h1, h2]]
        simp only [Option.isSome_some, true_iff]
        exact ⟨p, List.mem_cons_self p ps, Bool.eq_false_iff.mpr h1, h2⟩
      · have h3 : wholeWordMatch (normalizeString p) nt = false := by
          cases hw : wholeWordMatch (normalizeString p) nt
          · rfl
          · exact absurd (wholeWordMatch_contains hw) h2
        rw [show titleCheck nt (p :: ps) = titleCheck nt ps by simp [titleCheck, h1, h2, h3]]
        rw [ih]
        constructor
        · rintro ⟨q, hq, hne, hc⟩
          exact ⟨q, List.mem_cons_of_mem p hq, hne, hc⟩
        · rintro ⟨q, hq, hne, hc⟩
          rcases List.mem_cons.mp hq with rfl | hq
          · exact absurd hc h2
          · exact ⟨q, hq, hne, hc⟩

/-- The blacklist flag of `isTitleBlacklisted` in terms of the loop. -/
theorem isTitleBlacklisted_fst (t : List Char) (pats : List (List Char)) :
    (isTitleBlacklisted t pats).1 =
      (!t.isEmpty && (titleCheck (normalizeString t) pats).isSome) := by
  unfold isTitleBlacklisted
  by_cases ht : t.isEmpty = true
  · simp [ht]
  · have ht2 := Bool.eq_false_iff.mpr ht
    simp only [ht2, Bool.false_eq_true, if_false, Bool.not_false, Bool.true_and]
    cases titleCheck (normalizeString t) pats <;> simp

/-! ## Claim theorems -/

/-- C9 counterexample.  The claim states that a title is blacklisted if
and only if a pattern matches the normalized title as a whole word,
with plain substring containment used only when the pattern cannot form
a valid word-boundary expression.  The pattern `"cat"` forms a
perfectly valid word-boundary expression and does not occur as a whole
word in `"Scatter"` (so the claim says: not blacklisted), yet
`isTitleBlacklisted` reports a match, because the code tests plain
substring containment before the word-boundary regex. -/
theorem title_blacklist_substring_counterexample :
    (isTitleBlacklisted "Scatter".data ["cat".data]).1 = true ∧
    wholeWordMatch (normalizeString "cat".data) (normalizeString "Scatter".data) = false := by
  decide

/-- C9 (amended): a title is blacklisted exactly when it is non-empty
and some pattern in `title_patterns` has a non-empty normalized form
occurring as a plain substring of the normalized title.  The
word-boundary test exists in the code but runs after — and is implied
by — the substring test, so it never changes the outcome. -/
theorem title_blacklist_substring_semantics (t : List Char) (pats : List (List Char)) :
    (isTitleBlacklisted t pats).1 = true ↔
      t.isEmpty = false ∧ ∃ p ∈ pats, (normalizeString p).isEmpty = false ∧
        containsSeq (normalizeString p) (normalizeString t) = true := by
  rw [isTitleBlacklisted_fst, Bool.and_eq_true, Bool.not_eq_eq_eq_not, Bool.not_true,
    titleCheck_isSome_iff]

/-- The raw blacklist load agrees with the `Option`-typed model of
`loadBlacklist` on documents whose fields are absent or arrays. -/
theorem loadRawBlacklist_refines (a t p : Option (List (List Char))) :
    rawEffPolicy (loadRawBlacklist (.parsed ⟨toRawField a, toRawField t, toRawField p⟩)) =
      loadBlacklist (.parsed ⟨a, t, p⟩) := by
  rcases a with _ | ⟨_ | ⟨a0, as⟩⟩ <;> rcases t with _ | ⟨_ | ⟨t0, ts⟩⟩ <;>
    rcases p with _ | ⟨_ | ⟨p0, ps⟩⟩ <;> rfl

/-- C1 counterexample.  The claim states that with a missing blacklist
document the filter stage removes zero items from every item database.
With the blacklist document missing the code substitutes the hardcoded
emergency blacklist, so a database holding a book attributed to one of
the emergency authors has that book removed: the run below removes one
item, not zero. -/
theorem purge_missing_blacklist_counterexample :
    (purgeModel [("B000000001".data, ⟨"Some Book".data, "Adolf Hitler".data⟩)]
      .missing).purgedCount = 1 ∧
    (purgeModel [("B000000001".data, ⟨"Some Book".data, "Adolf Hitler".data⟩)]
      .missing).success = true := by
  decide

/-- C1 (amended): with a missing blacklist document the filter stage
still completes successfully (no exception), but it filters against the
hardcoded emergency blacklist rather than an empty policy: exactly the
items matching the emergency blacklist are removed, and the rest are
kept. -/
theorem purge_missing_blacklist_behavior (books : List (List Char × PBook)) :
    (purgeModel books .missing).success = true ∧
    (purgeModel books .missing).purgedCount =
      (books.filter (fun kb =>
        (isBlacklisted kb.2 ⟨emergencyAuthors, emergencyTitlePatterns, []⟩).1)).length ∧
    (purgeModel books .missing).remaining =
      books.filter (fun kb =>
        !(isBlacklisted kb.2 ⟨emergencyAuthors, emergencyTitlePatterns, []⟩).1) :=
  ⟨rfl, rfl, rfl⟩

/-- C2 counterexample.  The claim states that a submission whose key is
never in the item database is kept (with `failed_attempts` incremented)
until a threshold of 3 and removed after exactly 3 cycles, never fewer,
and that a submission whose key is present has `failed_attempts` reset
to 0.  The cleaner the orchestrator imports (`src/scripts/cleaner.js`)
does neither: a fresh submission (`failed_attempts = 0`) whose key is
absent is removed on the very first cycle with reason
`failed_or_purged`, and a kept submission with `failed_attempts = 2`
keeps the value 2. -/
theorem cleaner_threshold_counterexample :
    (cleanerCleanup
      [⟨"https://www.amazon.com/dp/B000000001".data, "2025-01-01".data, 0⟩] []).kept = [] ∧
    (cleanerCleanup
      [⟨"https://www.amazon.com/dp/B000000001".data, "2025-01-01".data, 0⟩] []).removed =
      [(⟨"https://www.amazon.com/dp/B000000001".data, "2025-01-01".data, 0⟩,
        "failed_or_purged")] ∧
    (cleanerCleanup
      [⟨"https://www.amazon.com/dp/B000000001".data, "2025-01-01".data, 2⟩]
      ["B000000001".data]).kept =
      [⟨"https://www.amazon.com/dp/B000000001".data, "2025-01-01".data, 2⟩] := by
  decide

/-- C2 (amended): in the cleaner the orchestrator imports
(`src/scripts/cleaner.js`), a submission is kept — completely unchanged,
its `failed_attempts` not reset — exactly when its URL yields an ASIN
present in the item database; a submission without an extractable ASIN
is removed as `invalid_asin` and a submission whose ASIN is absent from
the database is removed immediately (on the first cycle) as
`failed_or_purged`, with no retry threshold.  (The 3-attempt policy of
the claim exists only in the superseded variant `src/unnamed/part_001`,
modelled by `part001Cleanup`.) -/
theorem cleaner_immediate_removal (subs : List Submission) (keys : List (List Char)) :
    (cleanerCleanup subs keys).kept =
      subs.filter (fun s =>
        match extractASIN s.url with
        | some a => keys.any (fun k => k == a)
        | none => false) ∧
    (cleanerCleanup subs keys).removed =
      (subs.filter (fun s =>
        match extractASIN s.url with
        | some a => !keys.any (fun k => k == a)
        | none => true)).map (fun s =>
          (s, match extractASIN s.url with
              | some _ => "failed_or_purged"
              | none => "invalid_asin")) := by
  induction subs with
  | nil => exact ⟨rfl, rfl⟩
  | cons s rest ih =>
    unfold cleanerCleanup
    cases ha : extractASIN s.url with
    | none =>
      simp only [List.filter_cons, ha, Bool.false_eq_true, if_false, if_true, List.map_cons]
      exact ⟨ih.1, by rw [ih.2]⟩
    | some a =>
      cases hk : keys.any (fun k => k == a) with
      | true =>
        simp only [List.filter_cons, ha, hk, Bool.not_true, Bool.false_eq_true, if_false,
          if_true]
        exact ⟨by rw [ih.1], ih.2⟩
      | false =>
        simp only [List.filter_cons, ha, hk, Bool.not_false, Bool.false_eq_true, if_false,
          if_true, List.map_cons]
        exact ⟨ih.1, by rw [ih.2]⟩

/-- C3: the orchestrator's module documentation (and the specification)
state the cycle sequence as cleanup, then acquisition (scrape), then
filter (purge), then publication — but `cycle` (`cycle.js` lines
304-350) awaits the stages in the order scrape, purge, cleanup,
publish.  On a fully successful run the executed order is
scrape-first, which differs from the documented cleanup-first order.
The stages are still strictly sequential, each awaited before the next
and aborted at the first failure (`runStagesAux`). -/
theorem cycle_stage_order :
    (cycleModel ⟨false, true, true, fun _ => true, true⟩).executed =
      [Stage.scrape, Stage.purge, Stage.cleanup, Stage.publish] ∧
    (cycleModel ⟨false, true, true, fun _ => true, true⟩).success = true ∧
    [Stage.scrape, Stage.purge, Stage.cleanup, Stage.publish] ≠
      [Stage.cleanup, Stage.scrape, Stage.purge, Stage.publish] := by
  decide

/-- C8 counterexample.  The claim states that every invocation that
acquires the lock releases it before returning, on every exit path,
including a failure of required-file initialization.  In `cycle.js`,
`initializeFiles()` (line 277) runs after `createLock()` (line 273) but
before the inner `try` whose `finally` (lines 411-414) releases the
lock, so when initialization fails the outer handler (line 415) returns
with the lock file still present. -/
theorem cycle_lock_leak_counterexample :
    (cycleModel ⟨false, false, true, fun _ => true, true⟩).lockHeldAfter = true ∧
    (cycleModel ⟨false, false, true, fun _ => true, true⟩).success = false := by
  decide

/-- C8 (amended): an invocation that acquires the lock and gets past
required-file initialization releases the lock on every exit path —
successful completion, failure of the `running`-status write, any stage
failure, and failure of the final status write.  Only a failure of
`initializeFiles` between lock creation and the guarded block leaks the
lock (until stale-lock recovery clears it). -/
theorem cycle_lock_released_after_init (env : CycleEnv)
    (h1 : env.lockedBefore = false) (h2 : env.initOk = true) :
    (cycleModel env).lockHeldAfter = false := by
  unfold cycleModel
  rw [h1, h2]
  simp only [Bool.false_eq_true, if_false, Bool.not_true, if_true]
  cases env.runningStatusOk with
  | false => rfl
  | true =>
    simp only [Bool.not_true, Bool.false_eq_true, if_false]
    cases (runStagesAux env.stageOk stageSeq).2 with
    | false => rfl
    | true =>
      simp only [if_true]
      cases env.completedStatusOk <;> rfl

/-- C8 witness: the amended theorem applied to a run in which the
`running`-status write itself throws. -/
theorem cycle_lock_released_after_init_witness :
    ((⟨false, true, false, fun _ => true, true⟩ : CycleEnv).lockedBefore = false ∧
      (⟨false, true, false, fun _ => true, true⟩ : CycleEnv).initOk = true) ∧
    (cycleModel ⟨false, true, false, fun _ => true, true⟩).lockHeldAfter = false :=
  ⟨⟨rfl, rfl⟩,
   cycle_lock_released_after_init ⟨false, true, false, fun _ => true, true⟩ rfl rfl⟩

/-- C5 counterexample.  The claim describes `safeWriteJSON` as backing
up, writing to a temporary path, atomically renaming, and restoring on
failure, and asserts the destination never holds a partial write.  The
`safeWriteJSON` in `cycle.js` (lines 190-216) has no temporary path and
no restore: it writes the new document directly to the destination, so
an interruption mid-write leaves a partial document — here `"ne"`,
which is neither the previous `"old"` nor the new `"new"` content. -/
theorem direct_write_partial_counterexample :
    DirectWriteCrash ⟨some "old", none, none⟩ "new" ⟨some "ne", some "old", none⟩ ∧
    (some "ne" : Option String) ≠ some "old" ∧
    (some "ne" : Option String) ≠ some "new" :=
  ⟨DirectWriteCrash.mainPartial "ne", by decide, by decide⟩

/-- C5 (amended): the temp-file `safeWriteJSON` variants (`cleaner.js`
lines 13-67, `publisher.js` lines 5-59, and the `src/unnamed` parts)
are crash-safe: at every point of an interrupted call the destination
holds either the complete previous content or the complete new
document, because the new document only reaches the destination through
the atomic rename.  The direct-write variants (`cycle.js` lines
190-216, `purger.js` lines 146-172, `scraper.js` lines 341-368) do not
have this property (see the counterexample). -/
theorem safe_write_crash_safety (fs0 : FS) (doc : String) (fs : FS)
    (h : SafeWriteCrash fs0 doc fs) :
    fs.main = fs0.main ∨ fs.main = some doc := by
  cases h with
  | initial => exact Or.inl rfl
  | backupPartial p hp => exact Or.inl rfl
  | backupDone => exact Or.inl rfl
  | tempPartial p => exact Or.inl rfl
  | tempDone => exact Or.inl rfl
  | renamed => exact Or.inr rfl
  | unlinked => exact Or.inr rfl

/-- C5 witness: the crash-safety theorem applied to a crash in the
middle of the temporary-file write. -/
theorem safe_write_crash_safety_witness :
    SafeWriteCrash ⟨some "old", none, none⟩ "new" ⟨some "old", some "old", some "pa"⟩ ∧
    ((⟨some "old", some "old", some "pa"⟩ : FS).main =
        (⟨some "old", none, none⟩ : FS).main ∨
      (⟨some "old", some "old", some "pa"⟩ : FS).main = some "new") :=
  ⟨SafeWriteCrash.tempPartial "pa",
   safe_write_crash_safety ⟨some "old", none, none⟩ "new" ⟨some "old", some "old", some "pa"⟩
     (SafeWriteCrash.tempPartial "pa")⟩

/-- C4 counterexample.  The claim states that publishing an empty item
database succeeds and writes an explicitly empty artifact.  In
`publisher.js`, `validateOutput` throws `No valid books found in
output` whenever the sanitized book map is empty (lines 204-206), so
`publish` over an empty database returns a failure and writes
nothing. -/
theorem publish_empty_db_counterexample :
    validateOutput (fun _ => true) (transformToOutput "2025-01-01T00:00:00.000Z" []) =
      Except.error "No valid books found in output" := by
  rfl

/-- C4 (amended): whenever the transformed output has no entries
passing validation — in particular for an empty item database — the
publish stage's validation fails with `No valid books found in output`
and `publish` reports failure; an empty database is an error for
publish, not a valid terminal state. -/
theorem publish_no_valid_books_error (dateOk : String → Bool) (ts : String)
    (meta : List (String × MetaBook)) (hts : ts.isEmpty = false) (hdate : dateOk ts = true)
    (hvalid : validBooksOf (transformToOutput ts meta) = []) :
    validateOutput dateOk (transformToOutput ts meta) =
      Except.error "No valid books found in output" := by
  have hlu : (transformToOutput ts meta).last_updated = ts := rfl
  unfold validateOutput
  rw [hlu, hts, hdate, hvalid]
  simp

/-- C4 witness: the amended theorem applied to the empty database. -/
theorem publish_no_valid_books_error_witness :
    (("2025-01-01T00:00:00.000Z" : String).isEmpty = false ∧
      (fun (_ : String) => true) "2025-01-01T00:00:00.000Z" = true ∧
      validBooksOf (transformToOutput "2025-01-01T00:00:00.000Z" []) = []) ∧
    validateOutput (fun _ => true) (transformToOutput "2025-01-01T00:00:00.000Z" []) =
      Except.error "No valid books found in output" :=
  ⟨⟨by decide, rfl, by decide⟩,
   publish_no_valid_books_error (fun _ => true) "2025-01-01T00:00:00.000Z" []
     (by decide) rfl (by decide)⟩

/-- Every entry of `assignRanks i l` carries the `bsr` of some source
entry and a rank of at least `i`. -/
theorem mem_assignRanks :
    ∀ (l : List (String × MetaBook)) (i : Nat) (y : String × OutBook),
      y ∈ assignRanks i l → ∃ x ∈ l, y.2.bsr = x.2.bsr ∧ i ≤ y.2.rank := by
  intro l
  induction l with
  | nil =>
    intro i y h
    exact absurd h (List.not_mem_nil y)
  | cons hd t ih =>
    intro i y h
    obtain ⟨a, b⟩ := hd
    rcases List.mem_cons.mp h with rfl | h2
    · exact ⟨(a, b), List.mem_cons_self _ _, rfl, Nat.le_refl i⟩
    · obtain ⟨x, hx, hbsr, hrank⟩ := ih (i + 1) y h2
      exact ⟨x, List.mem_cons_of_mem _ hx, hbsr, Nat.le_of_succ_le hrank⟩

/-- Rank assignment over a comparator-sorted list yields strictly
increasing ranks and comparator-ordered `bsr` keys. -/
theorem pairwise_assignRanks :
    ∀ (l : List (String × MetaBook)) (i : Nat), List.Pairwise entRel l →
      List.Pairwise (fun a b : String × OutBook => a.2.rank < b.2.rank ∧
        optKeyLeB (bsrKey a.2.bsr) (bsrKey b.2.bsr) = true) (assignRanks i l) := by
  intro l
  induction l with
  | nil =>
    intro i _
    exact List.Pairwise.nil
  | cons hd t ih =>
    intro i h
    obtain ⟨a, b⟩ := hd
    have hp := List.pairwise_cons.mp h
    refine List.Pairwise.cons ?_ (ih (i + 1) hp.2)
    intro y hy
    obtain ⟨x, hx, hbsr, hrank⟩ := mem_assignRanks t (i + 1) y hy
    refine ⟨Nat.lt_of_lt_of_le (Nat.lt_succ_self i) hrank, ?_⟩
    have hrel := hp.1 x hx
    rw [show ((a, (⟨i, b.title, b.author, b.cover_url, b.bsr, b.url⟩ : OutBook)).2.bsr) = b.bsr
      from rfl, hbsr]
    exact hrel

/-- C6: for every successful run of the publish validation, the rank
values of the published entries are exactly `{1, ..., N}` where `N` is
the number of published entries — no gaps, no duplicates — and the
entries are ordered by ascending parsed rank value (`bsr`), lower
first, with unparseable values last (`optKeyLeB` places `none`, the
model of `NaN`, after every number). -/
theorem publish_rank_density (dateOk : String → Bool) (ts : String)
    (meta : List (String × MetaBook)) (out : PubOutput)
    (h : validateOutput dateOk (transformToOutput ts meta) = Except.ok out) :
    out.books ≠ [] ∧
    (out.books.map (fun e => e.2.rank)).toFinset = Finset.Icc 1 out.books.length ∧
    (out.books.map (fun e => e.2.rank)).Nodup ∧
    List.Pairwise (fun a b : String × OutBook => a.2.rank < b.2.rank ∧
      optKeyLeB (bsrKey a.2.bsr) (bsrKey b.2.bsr) = true) out.books := by
  unfold validateOutput at h
  by_cases h1 : ((transformToOutput ts meta).last_updated.isEmpty ||
      !dateOk (transformToOutput ts meta).last_updated) = true
  · rw [if_pos h1] at h
    exact Except.noConfusion h
  rw [if_neg h1] at h
  by_cases h2 : (decide ((validBooksOf (transformToOutput ts meta)).length > 0) &&
      !((List.range' 1 (validBooksOf (transformToOutput ts meta)).length).all
        (fun i => decide (i ∈ ranksOf (transformToOutput ts meta))))) = true
  · rw [if_pos h2] at h
    exact Except.noConfusion h
  rw [if_neg h2] at h
  by_cases h3 : (decide ((validBooksOf (transformToOutput ts meta)).length > 0) &&
      !((ranksOf (transformToOutput ts meta)).card ==
        (validBooksOf (transformToOutput ts meta)).length)) = true
  · rw [if_pos h3] at h
    exact Except.noConfusion h
  rw [if_neg h3] at h
  by_cases h4 : (validBooksOf (transformToOutput ts meta)).isEmpty = true
  · rw [if_pos h4] at h
    exact Except.noConfusion h
  rw [if_neg h4] at h
  injection h with h5
  subst h5
  have hne : validBooksOf (transformToOutput ts meta) ≠ [] := by
    intro hnil
    rw [hnil] at h4
    exact h4 rfl
  have hpos : 0 < (validBooksOf (transformToOutput ts meta)).length :=
    List.length_pos.mpr hne
  have hall : (List.range' 1 (validBooksOf (transformToOutput ts meta)).length).all
      (fun i => decide (i ∈ ranksOf (transformToOutput ts meta))) = true := by
    rcases Bool.and_eq_false_iff.mp (Bool.eq_false_iff.mpr h2) with hc | hc
    · exact absurd (decide_eq_true hpos) (by simp [hc])
    · simpa using hc
  have hcard : (ranksOf (transformToOutput ts meta)).card =
      (validBooksOf (transformToOutput ts meta)).length := by
    rcases Bool.and_eq_false_iff.mp (Bool.eq_false_iff.mpr h3) with hc | hc
    · exact absurd (decide_eq_true hpos) (by simp [hc])
    · exact Nat.eq_of_beq_eq_true (by simpa using hc)
  have hmem : ∀ i, 1 ≤ i → i ≤ (validBooksOf (transformToOutput ts meta)).length →
      i ∈ ranksOf (transformToOutput ts meta) := by
    intro i hi1 hi2
    have := List.all_eq_true.mp hall i
      (List.mem_range'_1.mpr ⟨hi1, by omega⟩)
    exact of_decide_eq_true this
  have hsub : Finset.Icc 1 (validBooksOf (transformToOutput ts meta)).length ⊆
      ranksOf (transformToOutput ts meta) := by
    intro x hx
    rw [Finset.mem_Icc] at hx
    exact hmem x hx.1 hx.2
  have hicc : Finset.Icc 1 (validBooksOf (transformToOutput ts meta)).length =
      ranksOf (transformToOutput ts meta) := by
    refine Finset.eq_of_subset_of_card_le hsub ?_
    rw [hcard, Nat.card_Icc]
    omega
  refine ⟨hne, hicc.symm, ?_, ?_⟩
  · have hdl : ((validBooksOf (transformToOutput ts meta)).map
        (fun e => e.2.rank)).dedup.length =
        ((validBooksOf (transformToOutput ts meta)).map (fun e => e.2.rank)).length := by
      rw [← List.card_toFinset]
      rw [show ((validBooksOf (transformToOutput ts meta)).map
        (fun e => e.2.rank)).toFinset = ranksOf (transformToOutput ts meta) from rfl]
      rw [hcard, List.length_map]
    have hded := List.Sublist.eq_of_length
      (List.dedup_sublist ((validBooksOf (transformToOutput ts meta)).map
        (fun e => e.2.rank))) hdl
    exact List.dedup_eq_self.mp hded
  · have hsorted : List.Pairwise entRel (List.insertionSort entRel meta) :=
      List.sorted_insertionSort entRel meta
    have hpw := pairwise_assignRanks (List.insertionSort entRel meta) 1 hsorted
    exact List.Pairwise.sublist (List.filter_sublist _) hpw

/-- C6 witness: the density theorem applied to a concrete two-book
database (ranks 1 and 2 assigned ascending by `bsr` 57 and 1234). -/
theorem publish_rank_density_witness :
    (validateOutput (fun _ => true) (transformToOutput "2025-01-01T00:00:00.000Z" metaW) =
      Except.ok outW) ∧
    (outW.books ≠ [] ∧
      (outW.books.map (fun e => e.2.rank)).toFinset = Finset.Icc 1 outW.books.length ∧
      (outW.books.map (fun e => e.2.rank)).Nodup ∧
      List.Pairwise (fun a b : String × OutBook => a.2.rank < b.2.rank ∧
        optKeyLeB (bsrKey a.2.bsr) (bsrKey b.2.bsr) = true) outW.books) :=
  ⟨by rfl,
   publish_rank_density (fun _ => true) "2025-01-01T00:00:00.000Z" metaW outW (by rfl)⟩

/-- Looking up the assigned key after `setKey` yields the new value. -/
theorem lookupKey_setKey_self (books : List (String × BookRec)) (k : String) (v : BookRec) :
    lookupKey (setKey books k v) k = some v := by
  unfold setKey
  by_cases hany : books.any (fun kb => kb.1 == k) = true
  · rw [if_pos hany]
    induction books with
    | nil => simp at hany
    | cons kb t ih =>
      by_cases hk : (kb.1 == k) = true
      · unfold lookupKey
        simp only [List.map_cons, hk, if_true, List.find?_cons]
        rw [show ((k, v).1 == k) = true from beq_self_eq_true k]
        rfl
      · have htail : t.any (fun kb => kb.1 == k) = true := by
          rcases List.any_eq_true.mp hany with ⟨x, hx, hpx⟩
          rcases List.mem_cons.mp hx with rfl | hx2
          · exact absurd hpx hk
          · exact List.any_eq_true.mpr ⟨x, hx2, hpx⟩
        unfold lookupKey
        simp only [List.map_cons, hk, Bool.false_eq_true, if_false, List.find?_cons,
          cond_false]
        exact ih htail
  · rw [if_neg hany]
    unfold lookupKey
    rw [List.find?_append]
    have hnone : books.find? (fun kb => kb.1 == k) = none := by
      rw [List.find?_eq_none]
      intro x hx hpx
      exact hany (List.any_eq_true.mpr ⟨x, hx, hpx⟩)
    rw [hnone]
    simp only [Option.none_or, List.find?_cons]
    rw [show ((k, v).1 == k) = true from beq_self_eq_true k]
    rfl

/-- `setKey` leaves every other key's binding unchanged. -/
theorem lookupKey_setKey_other (books : List (String × BookRec)) (k : String) (v : BookRec)
    (k2 : String) (hk2 : k2 ≠ k) :
    lookupKey (setKey books k v) k2 = lookupKey books k2 := by
  unfold setKey
  by_cases hany : books.any (fun kb => kb.1 == k) = true
  · rw [if_pos hany]
    clear hany
    induction books with
    | nil => rfl
    | cons kb t ih =>
      unfold lookupKey
      by_cases hk : (kb.1 == k) = true
      · have hkb : kb.1 = k := eq_of_beq hk
        simp only [List.map_cons, hk, if_true, List.find?_cons]
        rw [show ((k, v).1 == k2) = false from beq_eq_false_iff_ne.mpr (fun hc => hk2 hc.symm),
          show (kb.1 == k2) = false from beq_eq_false_iff_ne.mpr (by rw [hkb]; exact fun hc => hk2 hc.symm)]
        exact ih
      · simp only [List.map_cons, hk, Bool.false_eq_true, if_false, List.find?_cons]
        by_cases hk2b : (kb.1 == k2) = true
        · rw [hk2b]
        · rw [show (kb.1 == k2) = false from Bool.eq_false_iff.mpr hk2b]
          exact ih
  · rw [if_neg hany]
    unfold lookupKey
    rw [List.find?_append]
    rw [show List.find? (fun kb => kb.1 == k2) [(k, v)] = none by
      simp only [List.find?_cons]
      rw [show ((k, v).1 == k2) = false from beq_eq_false_iff_ne.mpr (fun hc => hk2 hc.symm)]
      rfl]
    rw [Option.or_none]

/-- C7 counterexample.  The claim states that a successful acquisition
of an existing item appends exactly one `{timestamp, rank_value}` entry
to the stored history, keeps prior history entries and `first_seen`
unchanged, and replaces only the scalar fields.  The `processBatch`
upsert in the orchestrated scraper (`scraper.js` lines 461-464) instead
replaces the whole record with `{...result.data, last_updated}`: on
this concrete re-scrape the stored record afterwards has *no* history
key at all (not the prior history plus one appended entry) and no
`first_seen` key (the prior value is lost). -/
theorem scraper_history_lost_counterexample :
    lookupKey (processBatchUpsert [("B00000000C", bookRecOld)] scrapedD
      "2025-01-02T00:00:00.000Z") "B00000000C" =
      some (freshRec scrapedD "2025-01-02T00:00:00.000Z") ∧
    (freshRec scrapedD "2025-01-02T00:00:00.000Z").history = none ∧
    (freshRec scrapedD "2025-01-02T00:00:00.000Z").first_seen = none ∧
    bookRecOld.history = some [("2025-01-01T00:00:00.000Z", 100)] ∧
    bookRecOld.first_seen = some "2024-12-01T00:00:00.000Z" ∧
    (none : Option (List (String × Int))) ≠
      some [("2025-01-01T00:00:00.000Z", 100), ("2025-01-02T00:00:00.000Z", 50)] := by
  refine ⟨by rfl, rfl, rfl, rfl, rfl, by simp⟩

/-- C7 (amended): on a successful acquisition the orchestrated
scraper's `processBatch` stores, under the scraped ASIN, a fresh record
holding only the scraped scalar fields plus `last_updated` — the
previous record's `first_seen`, `history` and `leaderboard_rank` are
dropped, not preserved or appended to — while every other key's record
is left unchanged.  (The claim's append-to-history upsert exists only
in the legacy scrape variant embedded with `publisher.js`, modelled by
`legacyScrapeUpsert`.) -/
theorem scraper_upsert_replaces (books : List (String × BookRec)) (d : ScrapedData)
    (now : String) :
    lookupKey (processBatchUpsert books d now) d.asin = some (freshRec d now) ∧
    (freshRec d now).history = none ∧
    (freshRec d now).first_seen = none ∧
    (freshRec d now).leaderboard_rank = none ∧
    ∀ k, k ≠ d.asin → lookupKey (processBatchUpsert books d now) k = lookupKey books k :=
  ⟨lookupKey_setKey_self books d.asin (freshRec d now), rfl, rfl, rfl,
   fun k hk => lookupKey_setKey_other books d.asin (freshRec d now) k hk⟩

/-- C7 witness: the amended theorem applied to the concrete database,
with the frame clause instantiated at a different key. -/
theorem scraper_upsert_replaces_witness :
    ("B00000000X" ≠ scrapedD.asin) ∧
    lookupKey (processBatchUpsert [("B00000000C", bookRecOld)] scrapedD
      "2025-01-02T00:00:00.000Z") "B00000000X" =
      lookupKey [("B00000000C", bookRecOld)] "B00000000X" :=
  ⟨by decide,
   (scraper_upsert_replaces [("B00000000C", bookRecOld)] scrapedD
     "2025-01-02T00:00:00.000Z").2.2.2.2 "B00000000X" (by decide)⟩

end Leaderboard
